import Mathlib

/-!
Verification development for the `pouletpoulet` group-call application.

The repository is a React/PeerJS full-mesh audio/video room (main file
`src/App.tsx`, with earlier iterations of the same component kept as
`src/unnamed/part_000` and `src/unnamed/part_001`, and the shared type
declarations in `src/unnamed/part_002`).  This file shallowly embeds the
parts of the code that the specification's claims are about:

* the Presence Store (`addPeer` / `removePeer`, a JS `Map` of peer id to
  `RemotePeer`);
* the Mesh Coordinator (`connectToPeer`, `handleIncomingConnection`,
  `handleIncomingCall`, `acceptCall`, the `peer-list` message handler);
* the replicated whiteboard (`handleActivityMessage` whiteboard branch,
  `drawOnCanvas`, the clear button, the `sync-request` responder);
* the playback reconciliation (`sync-state` handling, the remote-update
  guard, the `onStateChange` broadcast).

Stateful React code is embedded as explicit state passing: each handler is a
pure function from a state record (the values held in React state and refs)
to a new state record plus a list of emitted effects/messages.  One React
scheduling fact matters for faithfulness and is used consistently below:
inside a single event-handler invocation, `peersRef.current` still holds the
peer map as it was when the handler started, because `setPeers` only queues
an update and the `useEffect` that copies `peers` into `peersRef` runs after
the re-render.  Queued functional updates themselves are applied in order,
so the resulting map is the sequential composition of the `addPeer` updates.
-/

/-! ## Data model (src/unnamed/part_002, src/App.tsx) -/

abbrev PeerId := String

/-- The JS runtime view of the nested `status` object of a `RemotePeer`.
Each field is `Option Bool`: `none` models a field that is absent
(`undefined`), which a partial object literal can produce at runtime even
though the declared TS type marks all four flags as required. -/
structure StatusFields where
  muted : Option Bool
  deafened : Option Bool
  videoEnabled : Option Bool
  isScreenSharing : Option Bool
deriving DecidableEq, Repr

/-- One remote participant, from `interface RemotePeer` (part_002).
`stream`, `dataConn` and `mediaCall` are opaque handles: only their
presence/absence matters to the claims, so they are modelled as
`Option String`. -/
structure RemotePeer where
  id : PeerId
  displayName : String
  avatar : Option String
  stream : Option String
  dataConn : Option String
  mediaCall : Option String
  status : StatusFields
  currentActivity : String
  volume : ℚ
  isSpeaking : Bool
deriving DecidableEq, Repr

/-- A partial update object (`Partial RemotePeer` in TS): a field that is
`none` is absent from the object literal and is therefore left unchanged by
the top-level spread in `addPeer`. -/
structure PartialRemotePeer where
  displayName : Option String := none
  avatar : Option (Option String) := none
  stream : Option (Option String) := none
  dataConn : Option (Option String) := none
  mediaCall : Option (Option String) := none
  status : Option StatusFields := none
  currentActivity : Option String := none
  volume : Option ℚ := none
  isSpeaking : Option Bool := none
deriving DecidableEq, Repr

/-- The peer map (`Map string RemotePeer`), as an association list in
insertion order, matching JS `Map` iteration semantics. -/
abbrev PeerMap := List (PeerId × RemotePeer)

def lookupPM : PeerMap → PeerId → Option RemotePeer
  | [], _ => none
  | (k, v) :: rest, id => if k = id then some v else lookupPM rest id

def hasPM (m : PeerMap) (id : PeerId) : Bool := (lookupPM m id).isSome

/-- Semantics of `Map.set`: replace in place if the key exists, else append. -/
def insertPM : PeerMap → PeerId → RemotePeer → PeerMap
  | [], id, v => [(id, v)]
  | (k, w) :: rest, id, v =>
      if k = id then (id, v) :: rest else (k, w) :: insertPM rest id v

def sizePM (m : PeerMap) : ℕ := m.length

def keysPM (m : PeerMap) : List PeerId := m.map Prod.fst

/-- The default record created by `addPeer` for a previously unknown id
(src/App.tsx lines 346-356). -/
def defaultPeer (id : PeerId) : RemotePeer :=
  { id := id
    displayName := "Connexion..."
    avatar := none
    stream := none
    dataConn := none
    mediaCall := none
    status :=
      { muted := some false, deafened := some false
        videoEnabled := some false, isScreenSharing := some false }
    currentActivity := "none"
    volume := 1
    isSpeaking := false }

/-- The spread `\x7b ...existing, ...partialPeer \x7d`: a top-level field
present in the update replaces the whole previous value of that field
(including the whole nested `status` object); absent fields are kept. -/
def mergePeer (e : RemotePeer) (u : PartialRemotePeer) : RemotePeer :=
  { id := e.id
    displayName := u.displayName.getD e.displayName
    avatar := u.avatar.getD e.avatar
    stream := u.stream.getD e.stream
    dataConn := u.dataConn.getD e.dataConn
    mediaCall := u.mediaCall.getD e.mediaCall
    status := u.status.getD e.status
    currentActivity := u.currentActivity.getD e.currentActivity
    volume := u.volume.getD e.volume
    isSpeaking := u.isSpeaking.getD e.isSpeaking }

/-- The Presence Store upsert `addPeer` (src/App.tsx lines 346-356). -/
def addPeer (m : PeerMap) (id : PeerId) (u : PartialRemotePeer) : PeerMap :=
  insertPM m id (mergePeer ((lookupPM m id).getD (defaultPeer id)) u)

/-! ## Mesh Coordinator (src/App.tsx lines 399-416, 713-745;
src/unnamed/part_000 lines 280-301) -/

/-- Metadata carried by an incoming data connection or media call. -/
structure ConnInfo where
  peer : PeerId
  metaDisplayName : Option String
  metaAvatar : Option String
deriving DecidableEq, Repr

inductive MeshEffect where
  | closeChannel (who : PeerId)
  | openChannels (dst : PeerId)
  | sendPeerList (dst : PeerId) (ids : List PeerId)
  | answerCall (who : PeerId)
  | ring
  | logMsg (s : String)
deriving DecidableEq, Repr

/-- The slice of component state the Mesh Coordinator reads and writes.
`hasPeerRef` / `hasLocalStream` model `peerRef.current` / `localStream`
being non-null; `roomCapacity` is the host-announced total room size. -/
structure AppState where
  selfId : PeerId
  hasPeerRef : Bool
  hasLocalStream : Bool
  roomCapacity : ℕ
  peers : PeerMap
  incomingCall : Option ConnInfo
deriving DecidableEq, Repr

/-- The hardcoded absolute ceiling (src/App.tsx line 14, part_000 line 6). -/
def MAX_PEERS_LIMIT : ℕ := 3

/-- Function `connectToPeer` from src/App.tsx lines 399-416.  Guard: no-op when the
local peer instance or stream is absent, the target is already in the peer
map, or the target is the local id.  Note: this version has no check
against `MAX_PEERS_LIMIT`; it opens both channels and registers the
pending entry unconditionally once the guard passes. -/
def connectToPeer (st : AppState) (targetId : PeerId) :
    AppState × List MeshEffect :=
  if ¬st.hasPeerRef ∨ ¬st.hasLocalStream ∨ hasPM st.peers targetId ∨
      targetId = st.selfId then (st, [])
  else
    ({ st with
        peers := addPeer st.peers targetId
          { displayName := some "Appel en cours..."
            mediaCall := some (some ("call-" ++ targetId))
            dataConn := some (some ("conn-" ++ targetId)) } },
      [.openChannels targetId])

/-- Function `connectToPeer` from src/unnamed/part_000 lines 280-301: same guard,
plus the absolute-ceiling check that fails silently (log only). -/
def connectToPeer_v0 (st : AppState) (targetId : PeerId) :
    AppState × List MeshEffect :=
  if ¬st.hasPeerRef ∨ ¬st.hasLocalStream ∨ hasPM st.peers targetId ∨
      targetId = st.selfId then (st, [])
  else if sizePM st.peers ≥ MAX_PEERS_LIMIT then
    (st, [.logMsg "Salon plein (Max 4)"])
  else
    ({ st with
        peers := addPeer st.peers targetId
          { displayName := some "Connexion..."
            mediaCall := some (some ("call-" ++ targetId))
            dataConn := some (some ("conn-" ++ targetId)) } },
      [.openChannels targetId])

/-- Handler `handleIncomingConnection` (src/App.tsx lines 713-722).  The admission
check compares the current peer count with `roomCapacity - 1`.  The
`peer-list` payload is `Array.from(peersRef.current.keys())`: inside this
handler `peersRef` still holds the pre-arrival map (the `setPeers` queued
by `addPeer` has not been committed), so the list contains exactly the
previously connected peer ids — the new joiner itself is not in it. -/
def handleIncomingConnection (st : AppState) (conn : ConnInfo) :
    AppState × List MeshEffect :=
  if sizePM st.peers ≥ st.roomCapacity - 1 then (st, [.closeChannel conn.peer])
  else
    let currentPeerIds := keysPM st.peers
    ({ st with
        peers := addPeer st.peers conn.peer
          { displayName := some (conn.metaDisplayName.getD "Ami")
            avatar := some conn.metaAvatar
            dataConn := some (some ("conn-" ++ conn.peer)) } },
      if currentPeerIds.isEmpty then []
      else [.sendPeerList conn.peer currentPeerIds])

/-- Handler `handleIncomingCall` (src/App.tsx lines 724-728): same admission check;
below the bound the call is only stored as the pending `incomingCall`
(plus ringtone) — no Peer entry is created here. -/
def handleIncomingCall (st : AppState) (call : ConnInfo) :
    AppState × List MeshEffect :=
  if sizePM st.peers ≥ st.roomCapacity - 1 then (st, [.closeChannel call.peer])
  else ({ st with incomingCall := some call }, [.ring])

/-- Action `acceptCall` (src/App.tsx lines 730-739): answering the pending call is
what creates the Peer entry for the caller. -/
def acceptCall (st : AppState) : AppState × List MeshEffect :=
  match st.incomingCall with
  | none => (st, [])
  | some call =>
      if ¬st.hasLocalStream then (st, [])
      else
        ({ st with
            peers := addPeer st.peers call.peer
              { displayName := some (call.metaDisplayName.getD "Ami")
                avatar := some call.metaAvatar
                mediaCall := some (some ("call-" ++ call.peer)) }
            incomingCall := none },
          [.answerCall call.peer])

/-- The `peer-list` case of `handleNetworkMessage` (src/App.tsx lines
464-468): for every listed id that is not self and not already known, call
`connectToPeer`.  Both this check and `connectToPeer`'s own guard read
`peersRef.current`, which keeps the pre-message map for the whole handler
invocation; the queued `addPeer` updates are then applied in order.  The
second component records the ids for which `connectTo` was invoked. -/
def handlePeerList (st : AppState) (ids : List PeerId) :
    AppState × List PeerId :=
  ids.foldl
    (fun acc pid =>
      if pid ≠ st.selfId ∧ ¬hasPM st.peers pid then
        (if st.hasPeerRef ∧ st.hasLocalStream then
          { acc.1 with
              peers := addPeer acc.1.peers pid
                { displayName := some "Appel en cours..."
                  mediaCall := some (some ("call-" ++ pid))
                  dataConn := some (some ("conn-" ++ pid)) } }
         else acc.1,
         acc.2 ++ [pid])
      else acc)
    (st, [])

/-! ## Replicated whiteboard (src/App.tsx lines 499-555, 1202-1207;
src/unnamed/part_001 lines 180-189, 594-641) -/

/-- Record `DrawLine` (part_002): one stroke segment in unit-square coordinates. -/
structure DrawLine where
  x : ℚ
  y : ℚ
  prevX : ℚ
  prevY : ℚ
  color : String
  size : ℚ
  isEraser : Bool
deriving DecidableEq, Repr

inductive WbAction where
  | draw
  | drawBatch
  | clear
  | setPage
  | syncRequest
deriving DecidableEq, Repr

/-- A whiteboard `activity` message: optional fields model the optional
`data` payload members. -/
structure WbMsg where
  action : WbAction
  pageIndex : Option ℕ
  drawData : Option DrawLine
  drawBatch : Option (List DrawLine)
deriving DecidableEq, Repr

/-- Per-page draw history (`wbHistoryRef`: a JS `Map` from page index to an
array of `DrawLine`), as an association list in insertion order. -/
abbrev WbHistory := List (ℕ × List DrawLine)

def lookupHist : WbHistory → ℕ → List DrawLine
  | [], _ => []
  | (q, ls) :: rest, p => if q = p then ls else lookupHist rest p

/-- Semantics of `Map.set`: replace in place, else append at the end. -/
def setHist : WbHistory → ℕ → List DrawLine → WbHistory
  | [], p, ls => [(p, ls)]
  | (q, ms) :: rest, p, ls =>
      if q = p then (p, ls) :: rest else (q, ms) :: setHist rest p ls

/-- The `if (!has(page)) set(page, []);  get(page).push(...)` idiom. -/
def appendHist (h : WbHistory) (p : ℕ) (ls : List DrawLine) : WbHistory :=
  setHist h p (lookupHist h p ++ ls)

/-- The whiteboard slice of component state: `activityOpen` models
`activityView?.type === 'whiteboard'`, `canvasPresent` models
`canvasRef.current` being non-null, `pageIndex` is `wbPageIndex`. -/
structure WbState where
  activityOpen : Bool
  pageIndex : ℕ
  hist : WbHistory
  canvasPresent : Bool
deriving DecidableEq, Repr

/-- The whiteboard branch of `handleActivityMessage`.  The `draw` and
`clear` and `set-page` arms are src/App.tsx lines 499-519; the
`draw-batch` arm is the additional arm of src/unnamed/part_001 lines
608-618 (absent from App.tsx, whose handler ignores that action).  The
branch returns early when the whiteboard activity is not open.  The second
component lists the segments rendered to the canvas by this call (the
code renders only when the stated page equals the displayed page and a
canvas is mounted). -/
def handleWbMessage (st : WbState) (m : WbMsg) : WbState × List DrawLine :=
  if ¬st.activityOpen then (st, [])
  else
    match m.action with
    | .draw =>
        match m.drawData with
        | none => (st, [])
        | some line =>
            let page := m.pageIndex.getD 0
            ({ st with hist := appendHist st.hist page [line] },
              if page = st.pageIndex ∧ st.canvasPresent then [line] else [])
    | .drawBatch =>
        match m.drawBatch with
        | none => (st, [])
        | some lines =>
            let page := m.pageIndex.getD 0
            ({ st with hist := appendHist st.hist page lines },
              if page = st.pageIndex ∧ st.canvasPresent then lines else [])
    | .clear =>
        ({ st with hist := setHist st.hist st.pageIndex [] }, [])
    | .setPage =>
        match m.pageIndex with
        | some p => ({ st with pageIndex := p }, [])
        | none => (st, [])
    | .syncRequest => (st, [])

/-- The message broadcast by the whiteboard clear button (src/App.tsx lines
1202-1207): action `clear`, no page index, no payload. -/
def clearMsg : WbMsg :=
  { action := .clear, pageIndex := none, drawData := none, drawBatch := none }

/-- The clear button itself: erases the canvas, truncates the history of
the locally displayed page, and broadcasts `clearMsg`. -/
def wbClearButton (st : WbState) : WbState × WbMsg :=
  ({ st with hist := setHist st.hist st.pageIndex [] }, clearMsg)

/-- The reply built by the `sync-request` arm of src/unnamed/part_001 lines
627-641: the entire history, each nonempty page as one `draw-batch`
message (App.tsx lines 520-533 instead packages the same content as one
`draw` message per segment). -/
def syncReply (h : WbHistory) : List WbMsg :=
  h.filterMap fun pl =>
    if pl.2.isEmpty then none
    else some
      { action := .drawBatch, pageIndex := some pl.1
        drawData := none, drawBatch := some pl.2 }

/-- The full `sync-request` arm: nothing happens when the whiteboard is not
open (early return of the branch) or when the requester has no peer entry
with a data connection. -/
def respondSyncRequest (st : WbState) (requester : Option RemotePeer) :
    List WbMsg :=
  if ¬st.activityOpen then []
  else
    match requester with
    | some p => if p.dataConn.isSome then syncReply st.hist else []
    | none => []

/-- Receiver side of a list of whiteboard messages, in channel order. -/
def processWbMsgs (st : WbState) (ms : List WbMsg) : WbState :=
  ms.foldl (fun s m => (handleWbMessage s m).1) st

/-! ### Canvas raster model (`drawOnCanvas`, src/App.tsx lines 538-555)

The canvas is a `W × H` grid of pixels, each either transparent (`none`) or
holding a colour.  A stroke is an idealized opaque round-capped line of
width `size`: it covers the pixels whose centre is within `size / 2` of the
segment.  `source-over` writes the stroke colour over covered pixels;
`destination-out` (the eraser mode) makes covered pixels transparent. -/

def Canvas (W H : ℕ) := Fin W → Fin H → Option String

def blankCanvas (W H : ℕ) : Canvas W H := fun _ _ => none

/-- Squared distance from the centre of pixel `(i, j)` to the segment of
`l` scaled to a `W × H` canvas, compared with `(size / 2) ^ 2`. -/
def coversPx (l : DrawLine) (W H : ℕ) (i j : ℕ) : Bool :=
  let ax : ℚ := l.prevX * W
  let ay : ℚ := l.prevY * H
  let bx : ℚ := l.x * W
  let bY : ℚ := l.y * H
  let px : ℚ := (i : ℚ) + 1/2
  let py : ℚ := (j : ℚ) + 1/2
  let dx := bx - ax
  let dy := bY - ay
  let len2 := dx * dx + dy * dy
  let t := if len2 = 0 then 0 else ((px - ax) * dx + (py - ay) * dy) / len2
  let tc := max 0 (min 1 t)
  let qx := ax + tc * dx
  let qy := ay + tc * dy
  decide ((px - qx) * (px - qx) + (py - qy) * (py - qy) ≤ (l.size / 2) * (l.size / 2))

/-- Function `drawOnCanvas`: render one segment onto the raster. -/
def drawOnCanvas (l : DrawLine) {W H : ℕ} (c : Canvas W H) : Canvas W H :=
  fun i j =>
    if coversPx l W H i.val j.val then
      (if l.isEraser then none else some l.color)
    else c i j

/-- Replaying a list of segments onto a canvas in order (the page redraw
effect does exactly this over the stored history). -/
def replayCanvas (W H : ℕ) (ls : List DrawLine) (c : Canvas W H) : Canvas W H :=
  ls.foldl (fun acc l => drawOnCanvas l acc) c

/-- The whiteboard page redraw effect (src/unnamed/part_001 lines 180-189,
identical in src/App.tsx): on a page switch, clear the raster and replay
the stored history of the now-displayed page. -/
def pageRedraw (W H : ℕ) (st : WbState) : Canvas W H :=
  replayCanvas W H (lookupHist st.hist st.pageIndex) (blankCanvas W H)

/-! ## Playback reconciliation (src/App.tsx lines 478-485, 630-646) -/

/-- The YouTube player as seen through the API used by the code:
`getCurrentTime` and `getPlayerState` (1 playing, 2 paused, 3 buffering). -/
structure YtPlayer where
  currentTime : ℚ
  playerState : ℤ
deriving DecidableEq, Repr

/-- The `sync-state` arm of `handleActivityMessage` (src/App.tsx lines
478-485), as its effect on the player: seek when the drift exceeds 1.5 s,
then `playVideo` when the received state is playing and the local one is
not, else `pauseVideo` when the received state is paused.  The second
component records whether a seek was performed.  (`currentTime || 0`
equals `currentTime` for every rational, so `ct` is used directly.) -/
def applySyncState (p : YtPlayer) (ps : ℤ) (ct : ℚ) : YtPlayer × Bool :=
  let myTime := p.currentTime
  let seek := |myTime - ct| > 3/2
  let p1 := if seek then { p with currentTime := ct } else p
  let p2 :=
    if ps = 1 ∧ p1.playerState ≠ 1 then { p1 with playerState := 1 }
    else if ps = 2 then { p1 with playerState := 2 }
    else p1
  (p2, seek)

/-- The primitive steps performed by the `sync-state` arm, in program
order: set the remote-update guard, player commands, schedule the guard
release (the `setTimeout` delay in milliseconds). -/
inductive GuardAct where
  | setGuard (b : Bool)
  | seekTo (t : ℚ)
  | play
  | pause
  | scheduleRelease (delayMs : ℕ)
deriving DecidableEq, Repr

/-- The action sequence of the `sync-state` arm, transcribed in source
order from src/App.tsx lines 478-485: `isRemoteUpdateRef.current = true`
first, then the conditional seek, then the conditional play/pause, then
`setTimeout(() => isRemoteUpdateRef.current = false, 800)`. -/
def syncStateActs (p : YtPlayer) (ps : ℤ) (ct : ℚ) : List GuardAct :=
  [.setGuard true]
    ++ (if |p.currentTime - ct| > 3/2 then [.seekTo ct] else [])
    ++ (if ps = 1 ∧ p.playerState ≠ 1 then [.play]
        else if ps = 2 then [.pause] else [])
    ++ [.scheduleRelease 800]

def isPlayerCmd : GuardAct → Bool
  | .seekTo _ => true
  | .play => true
  | .pause => true
  | _ => false

def isScheduleRelease : GuardAct → Bool
  | .scheduleRelease _ => true
  | _ => false

/-- The `onStateChange` handler of the player created in `playVideo`
(src/App.tsx lines 630-646): when the remote-update guard is set it
returns immediately; otherwise it broadcasts a `sync-state` message for
player events 1, 2 and 3.  The result is the list of broadcast
`(playerState, currentTime)` payloads. -/
def onStateChange (guard : Bool) (p : YtPlayer) (e : ℤ) : List (ℤ × ℚ) :=
  if guard then []
  else if e = 1 ∨ e = 2 ∨ e = 3 then [(e, p.currentTime)]
  else []

/-! ## Helper lemmas about the map embeddings -/

theorem lookupPM_insertPM_self (m : PeerMap) (id : PeerId) (v : RemotePeer) :
    lookupPM (insertPM m id v) id = some v := by
  induction m with
  | nil => simp [insertPM, lookupPM]
  | cons kv rest ih =>
      obtain ⟨k, w⟩ := kv
      by_cases h : k = id
      · simp [insertPM, lookupPM, h]
      · simp [insertPM, lookupPM, h, ih]

theorem lookupPM_addPeer_self (m : PeerMap) (id : PeerId) (u : PartialRemotePeer) :
    lookupPM (addPeer m id u) id
      = some (mergePeer ((lookupPM m id).getD (defaultPeer id)) u) := by
  simp [addPeer, lookupPM_insertPM_self]

theorem lookupPM_none_of_not_mem_keys (m : PeerMap) (id : PeerId)
    (h : id ∉ keysPM m) : lookupPM m id = none := by
  induction m with
  | nil => simp [lookupPM]
  | cons kv rest ih =>
      obtain ⟨k, w⟩ := kv
      simp only [keysPM, List.map_cons, List.mem_cons] at h
      push_neg at h
      have hk : ¬k = id := fun he => h.1 he.symm
      simp [lookupPM, hk, ih (by simpa [keysPM] using h.2)]

theorem not_mem_keys_of_hasPM_false (m : PeerMap) (id : PeerId)
    (h : hasPM m id = false) : id ∉ keysPM m := by
  induction m with
  | nil => simp [keysPM]
  | cons kv rest ih =>
      obtain ⟨k, w⟩ := kv
      simp only [hasPM, lookupPM] at h
      by_cases hk : k = id
      · simp [hk] at h
      · simp only [keysPM, List.map_cons, List.mem_cons]
        push_neg
        refine ⟨fun he => hk he.symm, ?_⟩
        have : hasPM rest id = false := by simpa [hasPM, hk] using h
        simpa [keysPM] using ih this

theorem lookupHist_setHist_self (h : WbHistory) (p : ℕ) (ls : List DrawLine) :
    lookupHist (setHist h p ls) p = ls := by
  induction h with
  | nil => simp [setHist, lookupHist]
  | cons ql rest ih =>
      obtain ⟨q, ms⟩ := ql
      by_cases hq : q = p
      · simp [setHist, lookupHist, hq]
      · simp [setHist, lookupHist, hq, ih]

theorem lookupHist_setHist_ne (h : WbHistory) (p : ℕ) (ls : List DrawLine)
    (q : ℕ) (hq : q ≠ p) : lookupHist (setHist h p ls) q = lookupHist h q := by
  have hpq : ¬p = q := fun he => hq he.symm
  induction h with
  | nil => simp [setHist, lookupHist, hpq]
  | cons rl rest ih =>
      obtain ⟨r, ms⟩ := rl
      by_cases hr : r = p
      · subst hr
        simp [setHist, lookupHist, hpq]
      · by_cases hrq : r = q <;> simp [setHist, lookupHist, hr, hrq, hpq, hq, ih]

theorem lookupHist_appendHist_self (h : WbHistory) (p : ℕ) (ls : List DrawLine) :
    lookupHist (appendHist h p ls) p = lookupHist h p ++ ls := by
  simp [appendHist, lookupHist_setHist_self]

theorem lookupHist_appendHist_ne (h : WbHistory) (p : ℕ) (ls : List DrawLine)
    (q : ℕ) (hq : q ≠ p) :
    lookupHist (appendHist h p ls) q = lookupHist h q := by
  simp [appendHist, lookupHist_setHist_ne _ _ _ _ hq]

theorem lookupHist_nil_of_not_mem (h : WbHistory) (p : ℕ)
    (hp : p ∉ h.map Prod.fst) : lookupHist h p = [] := by
  induction h with
  | nil => simp [lookupHist]
  | cons ql rest ih =>
      obtain ⟨q, ms⟩ := ql
      simp only [List.map_cons, List.mem_cons] at hp
      push_neg at hp
      have hq : ¬q = p := fun he => hp.1 he.symm
      simp [lookupHist, hq, ih hp.2]

/-! ## Concrete states used by counterexamples, witnesses and scenarios -/

/-- A fully wired remote peer entry, as it looks after both channels and
the first status/profile messages have arrived. -/
def peerStub (id : PeerId) : RemotePeer :=
  { defaultPeer id with
      dataConn := some ("conn-" ++ id)
      mediaCall := some ("call-" ++ id)
      stream := some ("stream-" ++ id) }

/-- A host-side member with one connected guest, capacity 4. -/
def stOneGuest : AppState :=
  { selfId := "host-1234", hasPeerRef := true, hasLocalStream := true
    roomCapacity := 4
    peers := [("amie-1111", peerStub "amie-1111")]
    incomingCall := none }

/-- A member already holding `MAX_PEERS_LIMIT` = 3 connected peers. -/
def stThreeGuests : AppState :=
  { selfId := "host-1234", hasPeerRef := true, hasLocalStream := true
    roomCapacity := 4
    peers := [("amie-1111", peerStub "amie-1111"),
              ("bill-2222", peerStub "bill-2222"),
              ("cloe-3333", peerStub "cloe-3333")]
    incomingCall := none }

/-- A member whose local stream is absent. -/
def stNoStream : AppState :=
  { stOneGuest with hasLocalStream := false }

def connBob : ConnInfo := { peer := "bob-5555", metaDisplayName := some "Bob", metaAvatar := none }

/-! ## C1 — admission control on incoming connections and calls -/

/-- C1, counterexample to the claim as stated: a member with one connected
peer (count 1, capacity 4, bound 3) receives an incoming media call.  The
call is adopted (ringtone, stored as the pending incoming call, not
closed), but no Peer entry for the caller exists after the arrival
handler: the entry is only created later by `acceptCall`. -/
theorem c1_counterexample :
    sizePM stOneGuest.peers < stOneGuest.roomCapacity - 1 ∧
    (handleIncomingCall stOneGuest connBob).2 = [.ring] ∧
    (handleIncomingCall stOneGuest connBob).1.incomingCall = some connBob ∧
    lookupPM (handleIncomingCall stOneGuest connBob).1.peers "bob-5555" = none := by
  decide

/-- C1, amended: at/above the bound both arrival handlers close the channel
and leave the peer map unchanged; below it, an incoming data connection is
adopted and its Peer entry exists immediately, while an incoming media
call is adopted as the pending incoming call (no Peer entry yet) and the
caller's Peer entry exists after the user accepts the call. -/
theorem c1_amended (st : AppState) (conn call : ConnInfo) :
    (sizePM st.peers ≥ st.roomCapacity - 1 →
      handleIncomingConnection st conn = (st, [.closeChannel conn.peer]) ∧
      handleIncomingCall st call = (st, [.closeChannel call.peer])) ∧
    (sizePM st.peers < st.roomCapacity - 1 →
      (lookupPM (handleIncomingConnection st conn).1.peers conn.peer).isSome = true ∧
      (handleIncomingCall st call).1.peers = st.peers ∧
      (handleIncomingCall st call).1.incomingCall = some call ∧
      (handleIncomingCall st call).2 = [.ring] ∧
      (st.hasLocalStream = true →
        (lookupPM (acceptCall (handleIncomingCall st call).1).1.peers call.peer).isSome
          = true)) := by
  constructor
  · intro hge
    constructor
    · unfold handleIncomingConnection
      rw [if_pos hge]
    · unfold handleIncomingCall
      rw [if_pos hge]
  · intro hlt
    have hnge : ¬sizePM st.peers ≥ st.roomCapacity - 1 := not_le.mpr hlt
    refine ⟨?_, ?_, ?_, ?_, ?_⟩
    · unfold handleIncomingConnection
      rw [if_neg hnge]
      simp [lookupPM_addPeer_self]
    · unfold handleIncomingCall
      rw [if_neg hnge]
    · unfold handleIncomingCall
      rw [if_neg hnge]
    · unfold handleIncomingCall
      rw [if_neg hnge]
    · intro hstream
      unfold handleIncomingCall
      rw [if_neg hnge]
      unfold acceptCall
      simp [hstream, lookupPM_addPeer_self]

/-- C1 witness: the amended theorem applied at concrete states on both
sides of the bound. -/
theorem c1_witness :
    (handleIncomingConnection stThreeGuests connBob
        = (stThreeGuests, [.closeChannel "bob-5555"]) ∧
      handleIncomingCall stThreeGuests connBob
        = (stThreeGuests, [.closeChannel "bob-5555"])) ∧
    ((lookupPM (handleIncomingConnection stOneGuest connBob).1.peers "bob-5555").isSome
        = true ∧
      (handleIncomingCall stOneGuest connBob).1.peers = stOneGuest.peers ∧
      (handleIncomingCall stOneGuest connBob).1.incomingCall = some connBob ∧
      (handleIncomingCall stOneGuest connBob).2 = [.ring] ∧
      (stOneGuest.hasLocalStream = true →
        (lookupPM (acceptCall (handleIncomingCall stOneGuest connBob).1).1.peers
            "bob-5555").isSome = true)) :=
  ⟨(c1_amended stThreeGuests connBob connBob).1 (by decide),
   (c1_amended stOneGuest connBob connBob).2 (by decide)⟩

/-! ## C9 — connectTo guards and the absent absolute-ceiling check -/

/-- C9: the no-op guards of `connectToPeer` hold as claimed, but the
claimed absolute-ceiling check is missing from src/App.tsx: at a state
already holding `MAX_PEERS_LIMIT` = 3 peers, App.tsx's `connectToPeer`
opens channels and creates a fourth Peer entry, while the variant in
src/unnamed/part_000 (whose check the claim describes, and whose constant
App.tsx still defines but never uses) fails silently with only a log. -/
theorem c9_evidence :
    MAX_PEERS_LIMIT = 3 ∧
    sizePM stThreeGuests.peers = MAX_PEERS_LIMIT ∧
    sizePM (connectToPeer stThreeGuests "dani-4444").1.peers = 4 ∧
    (lookupPM (connectToPeer stThreeGuests "dani-4444").1.peers "dani-4444").isSome
      = true ∧
    (connectToPeer stThreeGuests "dani-4444").2 = [.openChannels "dani-4444"] ∧
    connectToPeer_v0 stThreeGuests "dani-4444"
      = (stThreeGuests, [.logMsg "Salon plein (Max 4)"]) ∧
    connectToPeer stThreeGuests "amie-1111" = (stThreeGuests, []) ∧
    connectToPeer stThreeGuests "host-1234" = (stThreeGuests, []) ∧
    connectToPeer stNoStream "bob-5555" = (stNoStream, []) := by
  decide

/-! ## C10 — the pageless clear message clears the receiver's own page -/

/-- C10: the clear button broadcasts a clear message that carries no page
index; the sender truncates the history of its own displayed page, and a
receiver with the whiteboard open truncates the history of **its** own
displayed page, leaving every other page untouched — so sender and
receiver displaying different pages clear different pages. -/
theorem c10_clear (sender receiver : WbState)
    (hr : receiver.activityOpen = true) :
    (wbClearButton sender).2 = clearMsg ∧
    clearMsg.pageIndex = none ∧
    lookupHist (wbClearButton sender).1.hist sender.pageIndex = [] ∧
    lookupHist (handleWbMessage receiver clearMsg).1.hist receiver.pageIndex = [] ∧
    (∀ q, q ≠ receiver.pageIndex →
      lookupHist (handleWbMessage receiver clearMsg).1.hist q
        = lookupHist receiver.hist q) ∧
    (sender.pageIndex ≠ receiver.pageIndex →
      lookupHist (handleWbMessage receiver clearMsg).1.hist sender.pageIndex
        = lookupHist receiver.hist sender.pageIndex) := by
  have hrecv : (handleWbMessage receiver clearMsg).1
      = { receiver with hist := setHist receiver.hist receiver.pageIndex [] } := by
    unfold handleWbMessage clearMsg
    rw [hr]
    simp
  refine ⟨rfl, rfl, ?_, ?_, ?_, ?_⟩
  · simp [wbClearButton, lookupHist_setHist_self]
  · rw [hrecv]
    simp [lookupHist_setHist_self]
  · intro q hq
    rw [hrecv]
    simp [lookupHist_setHist_ne _ _ _ _ hq]
  · intro hne
    rw [hrecv]
    simp [lookupHist_setHist_ne _ _ _ _ hne]

/-- A sample stroke segment. -/
def inkSeg : DrawLine :=
  { x := 1, y := 1, prevX := 0, prevY := 0
    color := "#000000", size := 3, isEraser := false }

/-- Sender state for the C10 witness: whiteboard open on page 1. -/
def wbSender : WbState :=
  { activityOpen := true, pageIndex := 1, hist := [(1, [inkSeg])]
    canvasPresent := true }

/-- Receiver state for the C10 witness: whiteboard open on page 2, with
content on pages 1 and 2. -/
def wbReceiver : WbState :=
  { activityOpen := true, pageIndex := 2
    hist := [(1, [inkSeg]), (2, [inkSeg])], canvasPresent := true }

/-- C10 witness: sender displaying page 1, receiver displaying page 2; the
receiver empties its page 2 while its page 1 keeps its stroke. -/
theorem c10_clear_witness :
    (wbClearButton wbSender).2 = clearMsg ∧
    clearMsg.pageIndex = none ∧
    lookupHist (wbClearButton wbSender).1.hist wbSender.pageIndex = [] ∧
    lookupHist (handleWbMessage wbReceiver clearMsg).1.hist wbReceiver.pageIndex = [] ∧
    (∀ q, q ≠ wbReceiver.pageIndex →
      lookupHist (handleWbMessage wbReceiver clearMsg).1.hist q
        = lookupHist wbReceiver.hist q) ∧
    (wbSender.pageIndex ≠ wbReceiver.pageIndex →
      lookupHist (handleWbMessage wbReceiver clearMsg).1.hist wbSender.pageIndex
        = lookupHist wbReceiver.hist wbSender.pageIndex) :=
  c10_clear wbSender wbReceiver rfl

/-! ## C6 — Presence Store upsert is a shallow (top-level) merge -/

/-- The prior record for the C6 counterexample: deafened, with a display
name, a stream and a tuned volume. -/
def priorPia : RemotePeer :=
  { defaultPeer "pia-1111" with
      displayName := "Pia"
      stream := some "stream-pia"
      volume := 0
      status :=
        { muted := some false, deafened := some true
          videoEnabled := some false, isScreenSharing := some false } }

def c6map : PeerMap := [("pia-1111", priorPia)]

/-- The object literal for an upsert carrying only `muted \x3a true`. -/
def upsertMutedTrue : PartialRemotePeer :=
  { status := some
      { muted := some true, deafened := none
        videoEnabled := none, isScreenSharing := none } }

/-- The object literal for an upsert carrying only `videoEnabled \x3a true`. -/
def upsertVideoTrue : PartialRemotePeer :=
  { status := some
      { muted := none, deafened := none
        videoEnabled := some true, isScreenSharing := none } }

def c6afterBoth : PeerMap :=
  addPeer (addPeer c6map "pia-1111" upsertMutedTrue) "pia-1111" upsertVideoTrue

/-- C6, counterexample to the claim as stated: after upserting the two
partial statuses, `deafened` is no longer at its prior value `some true` —
the update's `status` object replaced the whole previous one, so `deafened`
became absent (`none`); the first update's `muted \x3a true` is likewise lost
to the second update.  (`displayName`, `stream` and `volume`, being
top-level fields absent from both updates, are indeed preserved.) -/
theorem c6_counterexample :
    priorPia.status.deafened = some true ∧
    (lookupPM c6afterBoth "pia-1111").map (fun p => p.status.deafened)
      = some none ∧
    (lookupPM c6afterBoth "pia-1111").map (fun p => p.status.muted)
      = some none ∧
    (lookupPM c6afterBoth "pia-1111").map (fun p => p.displayName)
      = some "Pia" ∧
    (lookupPM c6afterBoth "pia-1111").map (fun p => p.stream)
      = some (some "stream-pia") ∧
    (lookupPM c6afterBoth "pia-1111").map (fun p => p.volume)
      = some 0 := by
  decide

/-- C6, amended: `addPeer` merges at the top level of the record — every
field absent from the update (`displayName`, `stream`, `volume`, or the
`status` object itself) keeps its prior value, and it never replaces the
whole record; but when the update does contain a `status` object, that
object replaces the previous status wholesale, so nested status fields the
update leaves out (such as `deafened`) are clobbered, not preserved. -/
theorem c6_amended (m : PeerMap) (id : PeerId) (prior : RemotePeer)
    (u : PartialRemotePeer) (hm : lookupPM m id = some prior) :
    lookupPM (addPeer m id u) id = some (mergePeer prior u) ∧
    (u.displayName = none → (mergePeer prior u).displayName = prior.displayName) ∧
    (u.stream = none → (mergePeer prior u).stream = prior.stream) ∧
    (u.volume = none → (mergePeer prior u).volume = prior.volume) ∧
    (u.status = none → (mergePeer prior u).status = prior.status) ∧
    (∀ s, u.status = some s → (mergePeer prior u).status = s) := by
  refine ⟨?_, ?_, ?_, ?_, ?_, ?_⟩
  · rw [lookupPM_addPeer_self, hm]
    rfl
  · intro h
    simp [mergePeer, h]
  · intro h
    simp [mergePeer, h]
  · intro h
    simp [mergePeer, h]
  · intro h
    simp [mergePeer, h]
  · intro s h
    simp [mergePeer, h]

/-- C6 witness: the amended theorem applied to the concrete prior record
and the `muted`-only upsert. -/
theorem c6_amended_witness :
    lookupPM (addPeer c6map "pia-1111" upsertMutedTrue) "pia-1111"
      = some (mergePeer priorPia upsertMutedTrue) ∧
    (upsertMutedTrue.displayName = none →
      (mergePeer priorPia upsertMutedTrue).displayName = priorPia.displayName) ∧
    (upsertMutedTrue.stream = none →
      (mergePeer priorPia upsertMutedTrue).stream = priorPia.stream) ∧
    (upsertMutedTrue.volume = none →
      (mergePeer priorPia upsertMutedTrue).volume = priorPia.volume) ∧
    (upsertMutedTrue.status = none →
      (mergePeer priorPia upsertMutedTrue).status = priorPia.status) ∧
    (∀ s, upsertMutedTrue.status = some s →
      (mergePeer priorPia upsertMutedTrue).status = s) :=
  c6_amended c6map "pia-1111" priorPia upsertMutedTrue (by decide)

/-! ## C7 — playback drift correction and state reconciliation -/

/-- C7, counterexample to the claim as stated: a received sync-state with
`playerState = 3` (buffering) while the local player is paused leaves the
local state paused — the handler only ever issues `playVideo` (state 1) or
`pauseVideo` (state 2), so the local state is not reconciled to a received
buffering state. -/
theorem c7_counterexample :
    (applySyncState { currentTime := 10, playerState := 2 } 3 10).1.playerState = 2 ∧
    (2 : ℤ) ≠ 3 := by
  constructor
  · norm_num [applySyncState]
  · decide

theorem applySyncState_seek (p : YtPlayer) (ps : ℤ) (ct : ℚ) :
    (applySyncState p ps ct).2 = true ↔ |p.currentTime - ct| > 3/2 := by
  unfold applySyncState
  by_cases hd : |p.currentTime - ct| > 3/2 <;> simp [hd]

theorem applySyncState_currentTime (p : YtPlayer) (ps : ℤ) (ct : ℚ) :
    (applySyncState p ps ct).1.currentTime
      = if |p.currentTime - ct| > 3/2 then ct else p.currentTime := by
  unfold applySyncState
  by_cases hd : |p.currentTime - ct| > 3/2 <;>
    by_cases h1 : ps = 1 ∧ p.playerState ≠ 1 <;>
      by_cases h2 : ps = 2 <;> simp [hd, h1, h2]

theorem applySyncState_playerState (p : YtPlayer) (ps : ℤ) (ct : ℚ) :
    (applySyncState p ps ct).1.playerState
      = if ps = 1 then 1 else if ps = 2 then 2 else p.playerState := by
  unfold applySyncState
  by_cases hd : |p.currentTime - ct| > 3/2 <;>
    by_cases h1 : ps = 1 <;>
      by_cases h2 : ps = 2 <;>
        by_cases h3 : p.playerState = 1 <;>
          simp [hd, h1, h2, h3]

/-- C7, amended: a corrective seek is performed iff the drift exceeds
1.5 s (local 10.0 s / received 9.0 s seeks nothing, local 10.0 s /
received 5.0 s seeks); a received playing state always results in a
playing player and a received paused state in a paused player, but a
received buffering state leaves the local play state unchanged. -/
theorem c7_amended (p : YtPlayer) (ps : ℤ) (ct : ℚ) :
    ((applySyncState p ps ct).2 = true ↔ |p.currentTime - ct| > 3/2) ∧
    ((applySyncState p ps ct).1.currentTime
      = if |p.currentTime - ct| > 3/2 then ct else p.currentTime) ∧
    (ps = 1 → (applySyncState p ps ct).1.playerState = 1) ∧
    (ps = 2 → (applySyncState p ps ct).1.playerState = 2) ∧
    (ps = 3 → (applySyncState p ps ct).1.playerState = p.playerState) ∧
    (applySyncState { currentTime := 10, playerState := 1 } 1 9).2 = false ∧
    (applySyncState { currentTime := 10, playerState := 1 } 1 5).2 = true := by
  refine ⟨applySyncState_seek p ps ct, applySyncState_currentTime p ps ct,
    ?_, ?_, ?_, ?_, ?_⟩
  · intro hps
    rw [applySyncState_playerState, if_pos hps]
  · intro hps
    subst hps
    rw [applySyncState_playerState]
    norm_num
  · intro hps
    subst hps
    rw [applySyncState_playerState]
    norm_num
  · have h := applySyncState_seek { currentTime := 10, playerState := 1 } 1 9
    have : ¬|(10 : ℚ) - 9| > 3/2 := by norm_num
    simp only [this, iff_false] at h
    simpa using h
  · rw [applySyncState_seek]
    norm_num

/-- C7 witness: the amended theorem applied at local time 10 s, state
paused, receiving a paused sync-state at 5 s (seek performed, state
reconciled to paused). -/
theorem c7_amended_witness :
    (applySyncState { currentTime := 10, playerState := 2 } 2 5).1.playerState = 2 :=
  (c7_amended { currentTime := 10, playerState := 2 } 2 5).2.2.2.1 rfl

/-! ## C8 — the remote-update guard around sync-state application -/

/-- C8: in the sync-state handler, the remote-update guard is the first
action, strictly before any seek/play/pause command; the only release the
handler ever schedules is a single one with a fixed 800 ms delay, and the
handler itself never clears the guard; while the guard is set, the
player's state-change handler broadcasts nothing (for no player event
whatsoever), so the events caused by applying a remote update are not
re-broadcast. -/
theorem c8_guard (p : YtPlayer) (ps : ℤ) (ct : ℚ) :
    (syncStateActs p ps ct).head? = some (.setGuard true) ∧
    (syncStateActs p ps ct).filter isScheduleRelease = [.scheduleRelease 800] ∧
    (syncStateActs p ps ct).filter (fun a => decide (a = .setGuard false)) = [] ∧
    (∀ q e, onStateChange true q e = []) := by
  refine ⟨?_, ?_, ?_, ?_⟩
  · simp [syncStateActs]
  · unfold syncStateActs
    by_cases hd : |p.currentTime - ct| > 3/2 <;>
      by_cases h1 : ps = 1 ∧ p.playerState ≠ 1 <;>
        by_cases h2 : ps = 2 <;>
          simp [hd, h1, h2, isScheduleRelease]
  · unfold syncStateActs
    by_cases hd : |p.currentTime - ct| > 3/2 <;>
      by_cases h1 : ps = 1 ∧ p.playerState ≠ 1 <;>
        by_cases h2 : ps = 2 <;>
          simp [hd, h1, h2]
  · intro q e
    simp [onStateChange]

/-! ## C2 — peer-list mesh discovery -/

/-- Generic shape of the `peer-list` fold: the second component collects
exactly the elements passing the guard, in order. -/
theorem foldl_snd_filter {α β : Type} (g : β × List α → α → β) (Q : α → Prop)
    [DecidablePred Q] :
    ∀ (ids : List α) (acc : β × List α),
      (ids.foldl (fun a x => if Q x then (g a x, a.2 ++ [x]) else a) acc).2
        = acc.2 ++ ids.filter (fun x => decide (Q x)) := by
  intro ids
  induction ids with
  | nil => simp
  | cons x xs ih =>
      intro acc
      by_cases h : Q x <;> simp [h, ih, List.filter_cons]

/-- The ids for which the `peer-list` handler invokes `connectTo` are
exactly the listed ids that are neither the local id nor already known. -/
theorem handlePeerList_calls (st : AppState) (ids : List PeerId) :
    (handlePeerList st ids).2
      = ids.filter (fun pid => decide (pid ≠ st.selfId ∧ ¬hasPM st.peers pid)) := by
  unfold handlePeerList
  exact foldl_snd_filter _ _ ids (st, [])

/-! The three-node discovery scenario: A and B are already connected; C
joins B; B's `peer-list` leads C to connect to A. -/

def scenA0 : AppState :=
  { selfId := "aaaa-1111", hasPeerRef := true, hasLocalStream := true
    roomCapacity := 4
    peers := [("bbbb-2222", peerStub "bbbb-2222")], incomingCall := none }

def scenB0 : AppState :=
  { selfId := "bbbb-2222", hasPeerRef := true, hasLocalStream := true
    roomCapacity := 4
    peers := [("aaaa-1111", peerStub "aaaa-1111")], incomingCall := none }

def scenC0 : AppState :=
  { selfId := "cccc-3333", hasPeerRef := true, hasLocalStream := true
    roomCapacity := 4, peers := [], incomingCall := none }

def connFromC : ConnInfo :=
  { peer := "cccc-3333", metaDisplayName := some "Coco", metaAvatar := none }

/-- C after calling `connectToPeer` towards B. -/
def scenC1 : AppState := (connectToPeer scenC0 "bbbb-2222").1

/-- B after handling C's incoming data connection. -/
def scenB1 : AppState := (handleIncomingConnection scenB0 connFromC).1

/-- C after handling the `peer-list` B sent it. -/
def scenC2 : AppState := (handlePeerList scenC1 ["aaaa-1111"]).1

/-- A after handling C's incoming data connection. -/
def scenA1 : AppState := (handleIncomingConnection scenA0 connFromC).1

/-- C2: when a data channel to a new joiner opens at a member below the
admission bound that already has other peers, the joiner is sent a
peer-list holding exactly the ids of all other currently-connected peers
(not the joiner, not the local id); a receiver of a peer-list calls
`connectTo` for exactly the listed ids that are neither itself nor already
known; and in the A-B-C join scenario every participant ends with exactly
two Peer entries. -/
theorem c2_peerList (st : AppState) (conn : ConnInfo)
    (h1 : sizePM st.peers < st.roomCapacity - 1)
    (h2 : hasPM st.peers conn.peer = false)
    (h3 : st.selfId ∉ keysPM st.peers)
    (h4 : st.peers ≠ []) :
    (handleIncomingConnection st conn).2
      = [.sendPeerList conn.peer (keysPM st.peers)] ∧
    conn.peer ∉ keysPM st.peers ∧
    st.selfId ∉ keysPM st.peers ∧
    (∀ st2 : AppState, ∀ ids : List PeerId,
      (handlePeerList st2 ids).2
        = ids.filter (fun pid => decide (pid ≠ st2.selfId ∧ ¬hasPM st2.peers pid))) ∧
    ((handleIncomingConnection scenB0 connFromC).2
        = [.sendPeerList "cccc-3333" ["aaaa-1111"]] ∧
      sizePM scenA1.peers = 2 ∧ sizePM scenB1.peers = 2 ∧ sizePM scenC2.peers = 2 ∧
      keysPM scenC2.peers = ["bbbb-2222", "aaaa-1111"]) := by
  have hnge : ¬sizePM st.peers ≥ st.roomCapacity - 1 := not_le.mpr h1
  refine ⟨?_, not_mem_keys_of_hasPM_false st.peers conn.peer h2, h3,
    fun st2 ids => handlePeerList_calls st2 ids, by decide⟩
  unfold handleIncomingConnection
  rw [if_neg hnge]
  have hne : keysPM st.peers ≠ [] := by
    simp only [keysPM, ne_eq, List.map_eq_nil_iff]
    exact h4
  simp [hne]

/-- C2 witness: the theorem applied at B's state handling C's incoming
connection. -/
theorem c2_peerList_witness :
    (handleIncomingConnection scenB0 connFromC).2
      = [.sendPeerList connFromC.peer (keysPM scenB0.peers)] ∧
    connFromC.peer ∉ keysPM scenB0.peers ∧
    scenB0.selfId ∉ keysPM scenB0.peers ∧
    (∀ st2 : AppState, ∀ ids : List PeerId,
      (handlePeerList st2 ids).2
        = ids.filter (fun pid => decide (pid ≠ st2.selfId ∧ ¬hasPM st2.peers pid))) ∧
    ((handleIncomingConnection scenB0 connFromC).2
        = [.sendPeerList "cccc-3333" ["aaaa-1111"]] ∧
      sizePM scenA1.peers = 2 ∧ sizePM scenB1.peers = 2 ∧ sizePM scenC2.peers = 2 ∧
      keysPM scenC2.peers = ["bbbb-2222", "aaaa-1111"]) :=
  c2_peerList scenB0 connFromC (by decide) (by decide) (by decide) (by decide)

/-! ## C4 — received draw segments: storage and conditional rendering -/

/-- A `draw` activity message as the pointer-drag handler broadcasts it
(src/App.tsx line 1246): one segment plus the sender's page index. -/
def mkDrawMsg (pOpt : Option ℕ) (line : DrawLine) : WbMsg :=
  { action := .draw, pageIndex := pOpt, drawData := some line
    drawBatch := none }

/-- A `draw-batch` activity message as the batching tick broadcasts it
(src/unnamed/part_001 lines 192-210). -/
def mkBatchMsg (pOpt : Option ℕ) (lines : List DrawLine) : WbMsg :=
  { action := .drawBatch, pageIndex := pOpt, drawData := none
    drawBatch := some lines }

/-- A receiver that is not displaying the whiteboard activity. -/
def wbClosedView : WbState :=
  { activityOpen := false, pageIndex := 0, hist := [], canvasPresent := true }

/-- C4, counterexample to the claim as stated: a receiver that is not
currently displaying the whiteboard activity drops a received draw
message entirely — nothing is appended to its DrawHistory (the handler
returns early when `activityView` is not the whiteboard), contradicting
the claim's "including when the receiver is not currently displaying the
whiteboard activity". -/
theorem c4_counterexample :
    handleWbMessage wbClosedView (mkDrawMsg (some 0) inkSeg) = (wbClosedView, []) ∧
    lookupHist (handleWbMessage wbClosedView (mkDrawMsg (some 0) inkSeg)).1.hist 0
      = [] := by
  exact ⟨rfl, rfl⟩

/-- C4, amended: while the receiver has the whiteboard activity open, a
received segment (or batch) is appended to the DrawHistory of the page
stated in the message, other pages are untouched, and it is rendered
immediately iff that page is the currently displayed one (and a canvas is
mounted); off-page segments are stored unrendered and a page switch
redraws by replaying that page's stored history onto a blank canvas.
When the receiver is not displaying the whiteboard activity, the message
is discarded entirely — nothing stored, nothing rendered. -/
theorem c4_amended (st : WbState) (line : DrawLine) (lines : List DrawLine)
    (pOpt : Option ℕ) :
    (st.activityOpen = true →
      lookupHist (handleWbMessage st (mkDrawMsg pOpt line)).1.hist (pOpt.getD 0)
        = lookupHist st.hist (pOpt.getD 0) ++ [line] ∧
      (∀ q, q ≠ pOpt.getD 0 →
        lookupHist (handleWbMessage st (mkDrawMsg pOpt line)).1.hist q
          = lookupHist st.hist q) ∧
      (handleWbMessage st (mkDrawMsg pOpt line)).2
        = (if pOpt.getD 0 = st.pageIndex ∧ st.canvasPresent then [line] else []) ∧
      lookupHist (handleWbMessage st (mkBatchMsg pOpt lines)).1.hist (pOpt.getD 0)
        = lookupHist st.hist (pOpt.getD 0) ++ lines ∧
      (handleWbMessage st (mkBatchMsg pOpt lines)).2
        = (if pOpt.getD 0 = st.pageIndex ∧ st.canvasPresent then lines else [])) ∧
    (st.activityOpen = false →
      handleWbMessage st (mkDrawMsg pOpt line) = (st, []) ∧
      handleWbMessage st (mkBatchMsg pOpt lines) = (st, [])) ∧
    (∀ (W H p : ℕ),
      pageRedraw W H { st with pageIndex := p }
        = replayCanvas W H (lookupHist st.hist p) (blankCanvas W H)) := by
  refine ⟨?_, ?_, fun W H p => rfl⟩
  · intro hopen
    have hdraw : handleWbMessage st (mkDrawMsg pOpt line)
        = ({ st with hist := appendHist st.hist (pOpt.getD 0) [line] },
            if pOpt.getD 0 = st.pageIndex ∧ st.canvasPresent then [line] else []) := by
      unfold handleWbMessage mkDrawMsg
      rw [hopen]
      simp
    have hbatch : handleWbMessage st (mkBatchMsg pOpt lines)
        = ({ st with hist := appendHist st.hist (pOpt.getD 0) lines },
            if pOpt.getD 0 = st.pageIndex ∧ st.canvasPresent then lines else []) := by
      unfold handleWbMessage mkBatchMsg
      rw [hopen]
      simp
    refine ⟨?_, ?_, ?_, ?_, ?_⟩
    · rw [hdraw]
      simp [lookupHist_appendHist_self]
    · intro q hq
      rw [hdraw]
      simp [lookupHist_appendHist_ne _ _ _ _ hq]
    · rw [hdraw]
    · rw [hbatch]
      simp [lookupHist_appendHist_self]
    · rw [hbatch]
  · intro hclosed
    constructor
    · unfold handleWbMessage mkDrawMsg
      rw [hclosed]
      simp
    · unfold handleWbMessage mkBatchMsg
      rw [hclosed]
      simp

/-- C4 witness: the amended theorem applied to a receiver with the
whiteboard open on page 1 receiving messages for page 1, and to one with
the whiteboard closed. -/
theorem c4_amended_witness :
    (lookupHist (handleWbMessage wbSender (mkDrawMsg (some 1) inkSeg)).1.hist 1
      = lookupHist wbSender.hist 1 ++ [inkSeg] ∧
    (∀ q, q ≠ (1 : ℕ) →
      lookupHist (handleWbMessage wbSender (mkDrawMsg (some 1) inkSeg)).1.hist q
        = lookupHist wbSender.hist q) ∧
    (handleWbMessage wbSender (mkDrawMsg (some 1) inkSeg)).2
      = (if (1 : ℕ) = wbSender.pageIndex ∧ wbSender.canvasPresent
          then [inkSeg] else []) ∧
    lookupHist (handleWbMessage wbSender (mkBatchMsg (some 1) [inkSeg])).1.hist 1
      = lookupHist wbSender.hist 1 ++ [inkSeg] ∧
    (handleWbMessage wbSender (mkBatchMsg (some 1) [inkSeg])).2
      = (if (1 : ℕ) = wbSender.pageIndex ∧ wbSender.canvasPresent
          then [inkSeg] else [])) ∧
    (handleWbMessage wbClosedView (mkDrawMsg (some 1) inkSeg) = (wbClosedView, []) ∧
      handleWbMessage wbClosedView (mkBatchMsg (some 1) [inkSeg])
        = (wbClosedView, [])) :=
  ⟨(c4_amended wbSender inkSeg [inkSeg] (some 1)).1 rfl,
   (c4_amended wbClosedView inkSeg [inkSeg] (some 1)).2.1 rfl⟩

/-! ## C5 — sync-request: full-history catch-up -/

/-- Every nonempty page of a history appears in the sync reply as its one
batch message. -/
theorem syncReply_mem (h : WbHistory) (p : ℕ) (ls : List DrawLine)
    (hmem : (p, ls) ∈ h) (hne : ls ≠ []) :
    mkBatchMsg (some p) ls ∈ syncReply h := by
  unfold syncReply
  refine List.mem_filterMap.mpr ⟨(p, ls), hmem, ?_⟩
  cases ls with
  | nil => exact absurd rfl hne
  | cons a as => simp [mkBatchMsg]

/-- Replaying a sync reply appends, page by page, the responder's whole
history onto the requester's. -/
theorem processWbMsgs_syncReply (resp : WbHistory) :
    ∀ (req : WbState), req.activityOpen = true → (resp.map Prod.fst).Nodup →
      ∀ page, lookupHist (processWbMsgs req (syncReply resp)).hist page
        = lookupHist req.hist page ++ lookupHist resp page := by
  induction resp with
  | nil =>
      intro req hopen hnd page
      simp [syncReply, processWbMsgs, lookupHist]
  | cons pl rest ih =>
      obtain ⟨p, ls⟩ := pl
      intro req hopen hnd page
      have hnd2 : (p :: rest.map Prod.fst).Nodup := by
        rw [List.map_cons] at hnd
        exact hnd
      have hmemnd := List.nodup_cons.mp hnd2
      have hnotmem : p ∉ rest.map Prod.fst := hmemnd.1
      have hnd' : (rest.map Prod.fst).Nodup := hmemnd.2
      by_cases hls : ls.isEmpty
      · have hnil : ls = [] := by simpa using hls
        subst hnil
        have hsr : syncReply ((p, []) :: rest) = syncReply rest := by
          simp [syncReply]
        rw [hsr, ih req hopen hnd' page]
        by_cases hp : p = page
        · subst hp
          rw [lookupHist_nil_of_not_mem rest p hnotmem]
          simp [lookupHist]
        · simp [lookupHist, hp]
      · have hls2 : ¬ls = [] := by simpa using hls
        have hsr : syncReply ((p, ls) :: rest)
            = mkBatchMsg (some p) ls :: syncReply rest := by
          simp [syncReply, hls2, mkBatchMsg]
        rw [hsr]
        have hstep : (handleWbMessage req (mkBatchMsg (some p) ls)).1
            = { req with hist := appendHist req.hist p ls } := by
          unfold handleWbMessage mkBatchMsg
          rw [hopen]
          simp
        have hopen2 : ({ req with hist := appendHist req.hist p ls } : WbState).activityOpen
            = true := by simpa using hopen
        have hrun : processWbMsgs req (mkBatchMsg (some p) ls :: syncReply rest)
            = processWbMsgs (handleWbMessage req (mkBatchMsg (some p) ls)).1
                (syncReply rest) := rfl
        rw [hrun, hstep, ih _ hopen2 hnd' page]
        by_cases hp : p = page
        · subst hp
          rw [lookupHist_nil_of_not_mem rest p hnotmem]
          simp [lookupHist, lookupHist_appendHist_self]
        · have hqp : page ≠ p := fun he => hp he.symm
          simp [lookupHist, hp, lookupHist_appendHist_ne _ _ _ _ hqp]

/-- C5: on a sync-request from a requester that has a peer entry with a
data connection, a responder with the whiteboard open sends its entire
DrawHistory, each nonempty page as exactly one batch message; after the
requester (whiteboard open) processes the reply, its history holds, page
by page, everything the responder held (appended after its own strokes).
Pages with no strokes contribute no message and no content. -/
theorem c5_syncRequest (resp req : WbState) (requester : RemotePeer)
    (h1 : resp.activityOpen = true) (h2 : req.activityOpen = true)
    (h3 : requester.dataConn.isSome = true)
    (h4 : (resp.hist.map Prod.fst).Nodup) :
    respondSyncRequest resp (some requester) = syncReply resp.hist ∧
    (∀ p ls, (p, ls) ∈ resp.hist → ls ≠ [] →
      mkBatchMsg (some p) ls ∈ respondSyncRequest resp (some requester)) ∧
    (∀ page,
      lookupHist (processWbMsgs req (respondSyncRequest resp (some requester))).hist page
        = lookupHist req.hist page ++ lookupHist resp.hist page) := by
  have hresp : respondSyncRequest resp (some requester) = syncReply resp.hist := by
    unfold respondSyncRequest
    rw [h1]
    simp [h3]
  refine ⟨hresp, ?_, ?_⟩
  · intro p ls hmem hne
    rw [hresp]
    exact syncReply_mem _ p ls hmem hne
  · intro page
    rw [hresp]
    exact processWbMsgs_syncReply resp.hist req h2 h4 page

/-- Responder state for the C5 witness: strokes on page 0, an empty page 1. -/
def respW : WbState :=
  { activityOpen := true, pageIndex := 0, hist := [(0, [inkSeg]), (1, [])]
    canvasPresent := true }

/-- Requester state for the C5 witness: freshly joined, empty history. -/
def reqW : WbState :=
  { activityOpen := true, pageIndex := 0, hist := [], canvasPresent := true }

/-- C5 witness: the theorem applied to the concrete responder/requester. -/
theorem c5_syncRequest_witness :
    respondSyncRequest respW (some (peerStub "dave-6666")) = syncReply respW.hist ∧
    (∀ p ls, (p, ls) ∈ respW.hist → ls ≠ [] →
      mkBatchMsg (some p) ls ∈ respondSyncRequest respW (some (peerStub "dave-6666"))) ∧
    (∀ page,
      lookupHist
          (processWbMsgs reqW (respondSyncRequest respW (some (peerStub "dave-6666")))).hist
          page
        = lookupHist reqW.hist page ++ lookupHist respW.hist page) :=
  c5_syncRequest respW reqW (peerStub "dave-6666") rfl rfl rfl (by decide)

/-! ## C3 — replay convergence and (non-)order-insensitivity -/

/-- An ink dot at the centre of the unit square (degenerate segment,
covered via the round cap). -/
def inkDot : DrawLine :=
  { x := 1/2, y := 1/2, prevX := 1/2, prevY := 1/2
    color := "#000000", size := 1, isEraser := false }

/-- The same dot drawn as an eraser segment (destination-out). -/
def eraseDot : DrawLine :=
  { inkDot with isEraser := true }

theorem covers_inkDot : coversPx inkDot 1 1 0 0 = true := by
  simp only [coversPx, inkDot, decide_eq_true_eq]
  norm_num

theorem covers_eraseDot : coversPx eraseDot 1 1 0 0 = true := by
  simp only [coversPx, eraseDot, inkDot, decide_eq_true_eq]
  norm_num

/-- C3, counterexample to the claim as stated: the two orders of the same
two-element set of segments — an ink stroke and an eraser stroke over the
same spot — replay to different rasters on a blank canvas: ink-then-erase
leaves the pixel transparent, erase-then-ink leaves it inked.  Replay is
therefore not order-insensitive, and participants that received the same
set in different cross-channel orders need not converge pixel-identically. -/
theorem c3_counterexample :
    [inkDot, eraseDot].Perm [eraseDot, inkDot] ∧
    replayCanvas 1 1 [inkDot, eraseDot] (blankCanvas 1 1) ⟨0, Nat.one_pos⟩
      ⟨0, Nat.one_pos⟩ = none ∧
    replayCanvas 1 1 [eraseDot, inkDot] (blankCanvas 1 1) ⟨0, Nat.one_pos⟩
      ⟨0, Nat.one_pos⟩ = some "#000000" := by
  refine ⟨List.Perm.swap eraseDot inkDot [], ?_, ?_⟩
  · have e1 : replayCanvas 1 1 [inkDot, eraseDot] (blankCanvas 1 1)
          ⟨0, Nat.one_pos⟩ ⟨0, Nat.one_pos⟩
        = drawOnCanvas eraseDot (drawOnCanvas inkDot (blankCanvas 1 1))
          ⟨0, Nat.one_pos⟩ ⟨0, Nat.one_pos⟩ := rfl
    rw [e1]
    unfold drawOnCanvas
    simp only [covers_inkDot, covers_eraseDot]
    simp [eraseDot, inkDot, blankCanvas]
  · have e2 : replayCanvas 1 1 [eraseDot, inkDot] (blankCanvas 1 1)
          ⟨0, Nat.one_pos⟩ ⟨0, Nat.one_pos⟩
        = drawOnCanvas inkDot (drawOnCanvas eraseDot (blankCanvas 1 1))
          ⟨0, Nat.one_pos⟩ ⟨0, Nat.one_pos⟩ := rfl
    rw [e2]
    unfold drawOnCanvas
    simp only [covers_inkDot, covers_eraseDot]
    simp [eraseDot, inkDot, blankCanvas]

/-- Two strokes whose pixel coverages are disjoint commute on the raster. -/
theorem drawOnCanvas_comm {W H : ℕ} (a b : DrawLine)
    (hd : ∀ i j, i < W → j < H →
      ¬(coversPx a W H i j = true ∧ coversPx b W H i j = true)) (c : Canvas W H) :
    drawOnCanvas b (drawOnCanvas a c) = drawOnCanvas a (drawOnCanvas b c) := by
  funext i j
  unfold drawOnCanvas
  by_cases h1 : coversPx a W H i.val j.val = true
  · by_cases h2 : coversPx b W H i.val j.val = true
    · exact absurd ⟨h1, h2⟩ (hd i.val j.val i.isLt j.isLt)
    · simp [h1, h2]
  · by_cases h2 : coversPx b W H i.val j.val = true <;> simp [h1, h2]

/-- C3, amended: replay is a deterministic function of the segment
sequence, and it is order-insensitive for a set of segments any two
distinct members of which cover disjoint sets of canvas pixels; with
overlapping segments (in particular an eraser over a stroke) the replayed
raster depends on the order, so convergence requires the same order, not
merely the same set. -/
theorem c3_amended (W H : ℕ) (l1 l2 : List DrawLine) (c : Canvas W H)
    (hperm : l1.Perm l2)
    (hdisj : ∀ a ∈ l1, ∀ b ∈ l1, a ≠ b → ∀ i, i < W → ∀ j, j < H →
      ¬(coversPx a W H i j = true ∧ coversPx b W H i j = true)) :
    replayCanvas W H l1 c = replayCanvas W H l2 c := by
  unfold replayCanvas
  refine hperm.foldl_eq' ?_ c
  intro x hx y hy z
  by_cases hxy : x = y
  · subst hxy
    rfl
  · exact drawOnCanvas_comm x y
      (fun i j hi hj => hdisj x hx y hy hxy i hi j hj) z

/-- A red dot over the left pixel of a 2-pixel-wide canvas. -/
def dotL : DrawLine :=
  { x := 1/4, y := 1/2, prevX := 1/4, prevY := 1/2
    color := "#ff0000", size := 1/2, isEraser := false }

/-- An eraser dot over the right pixel of a 2-pixel-wide canvas. -/
def dotR : DrawLine :=
  { x := 3/4, y := 1/2, prevX := 3/4, prevY := 1/2
    color := "#000000", size := 1/2, isEraser := true }

theorem covers_dotL_0 : coversPx dotL 2 1 0 0 = true := by
  simp only [coversPx, dotL, decide_eq_true_eq]
  norm_num

theorem covers_dotL_1 : coversPx dotL 2 1 1 0 = false := by
  simp only [coversPx, dotL]
  norm_num

theorem covers_dotR_0 : coversPx dotR 2 1 0 0 = false := by
  simp only [coversPx, dotR]
  norm_num

theorem covers_dotR_1 : coversPx dotR 2 1 1 0 = true := by
  simp only [coversPx, dotR, decide_eq_true_eq]
  norm_num

/-- C3 witness: the amended theorem applied to two coverage-disjoint dots
on a 2 × 1 canvas, in both orders. -/
theorem c3_amended_witness :
    replayCanvas 2 1 [dotL, dotR] (blankCanvas 2 1)
      = replayCanvas 2 1 [dotR, dotL] (blankCanvas 2 1) := by
  refine c3_amended 2 1 [dotL, dotR] [dotR, dotL] (blankCanvas 2 1)
    (List.Perm.swap dotR dotL []) ?_
  intro a ha b hb hab i hi j hj
  simp only [List.mem_cons, List.not_mem_nil, or_false] at ha hb
  interval_cases j
  interval_cases i
  · rcases ha with rfl | rfl <;> rcases hb with rfl | rfl
    · exact absurd rfl hab
    · simp [covers_dotL_0, covers_dotR_0]
    · simp [covers_dotL_0, covers_dotR_0]
    · exact absurd rfl hab
  · rcases ha with rfl | rfl <;> rcases hb with rfl | rfl
    · exact absurd rfl hab
    · simp [covers_dotL_1, covers_dotR_1]
    · simp [covers_dotL_1, covers_dotR_1]
    · exact absurd rfl hab
